import Mathlib

/-
Verification of the Finance-Flow transaction categorization engine
(src/backend/categorization/ml_categorizer.py) against its specification.

The engine is embedded shallowly:
- text handling (lowercasing, tokenization, stemming, substring and
  whole-word search) is modelled over `List Char`, mirroring the Python
  string operations on ASCII input;
- the Django `Category` model is a structure, catalog queries are `find?`
  over a list of entries (the spec guarantees names unique within a scope,
  so first-match equals the single match);
- confidences are exact rationals; at the thresholds used (0.85, 0.40,
  0.25, 0.20) and the scores produced (integer multiples of 0.15, capped),
  IEEE rounding in the Python floats cannot flip any comparison, so the
  rational model is faithful;
- the sklearn calls inside `train` are abstracted by an oracle record
  (`SklearnOps`) saying which calls succeed on a given corpus, while the
  assignment order of `self.vectorizer` / `self.model` and the final
  `_save_model` are modelled exactly as written;
- the statistical stage of `predict` (vectorizer transform + model
  predict/predict_proba, including the lazy load/train and the enclosing
  try/except) is abstracted by an oracle `String → Option (String × ℚ)`
  giving the predicted label and top probability, `none` meaning the model
  is unavailable or the stage raised.
-/

namespace FinanceFlow

/-- Django `Category` row: `user = none` for system categories. -/
structure Category where
  id : Nat
  name : String
  userId : Option Nat
  isSystem : Bool
deriving DecidableEq, Repr

/-- Python `str.lower` on an ASCII character. -/
def asciiLower (c : Char) : Char :=
  if 65 ≤ c.toNat ∧ c.toNat ≤ 90 then Char.ofNat (c.toNat + 32) else c

/-- Lowercase a character list (model of `description.lower()`). -/
def lowerL (s : List Char) : List Char := s.map asciiLower

/-- Regex word character (ASCII fragment of Python re `\w`). -/
def isWordChar (c : Char) : Bool :=
  (97 ≤ c.toNat && c.toNat ≤ 122) || (65 ≤ c.toNat && c.toNat ≤ 90)
    || (48 ≤ c.toNat && c.toNat ≤ 57) || c = '_'

/-- Whitespace for Python `str.split()`. -/
def isSpaceChar (c : Char) : Bool :=
  c = ' ' || c = '\t' || c = '\n' || c = '\r'

/-- Model of `re.findall(r'\b\w+\b', s)`: maximal runs of word characters. -/
def wordTokensAux : List Char → List Char → List (List Char)
  | [], acc => if acc.isEmpty then [] else [acc.reverse]
  | c :: rest, acc =>
    if isWordChar c then wordTokensAux rest (c :: acc)
    else if acc.isEmpty then wordTokensAux rest []
    else acc.reverse :: wordTokensAux rest []

def wordTokens (s : List Char) : List (List Char) := wordTokensAux s []

/-- Model of Python `s.split()`: split on whitespace runs. -/
def splitWsAux : List Char → List Char → List (List Char)
  | [], acc => if acc.isEmpty then [] else [acc.reverse]
  | c :: rest, acc =>
    if isSpaceChar c then
      if acc.isEmpty then splitWsAux rest [] else acc.reverse :: splitWsAux rest []
    else splitWsAux rest (c :: acc)

def splitWs (s : List Char) : List (List Char) := splitWsAux s []

/-- Pattern `p` matches at the head of `s`; returns the rest of `s` after it. -/
def dropMatch : List Char → List Char → Option (List Char)
  | [], s => some s
  | _ :: _, [] => none
  | p :: ps, c :: cs => if p = c then dropMatch ps cs else none

/-- Python `kw in s` (plain substring containment). -/
def hasSub (kw : List Char) : List Char → Bool
  | [] => (dropMatch kw []).isSome
  | s@(_ :: rest) => (dropMatch kw s).isSome || hasSub kw rest

/-- Word-boundary test for the character left of a match position. -/
def boundaryOk : Option Char → Bool
  | none => true
  | some c => !isWordChar c

/-- Word-boundary test for the remainder after a match. -/
def boundaryOkAfter : List Char → Bool
  | [] => true
  | c :: _ => !isWordChar c

/-- Model of `re.search(r'\b' + re.escape(kw) + r'\b', s)` for keywords that
begin and end with word characters (all rule keywords do): `kw` occurs in
`s` with no word character immediately before or after the occurrence.
`prev` is the character just left of the current position. -/
def wholeWordAux (kw : List Char) : Option Char → List Char → Bool
  | prev, s =>
    (boundaryOk prev &&
      match dropMatch kw s with
      | some rest => boundaryOkAfter rest
      | none => false) ||
    match s with
    | [] => false
    | c :: cs => wholeWordAux kw (some c) cs

def wholeWord (kw s : List Char) : Bool := wholeWordAux kw none s

/-- Suffix test on character lists. -/
def startsL : List Char → List Char → Bool
  | [], _ => true
  | _ :: _, [] => false
  | p :: ps, c :: cs => p = c && startsL ps cs

def endsL (s suf : List Char) : Bool := startsL suf.reverse s.reverse

/-- Model of `TransactionCategorizer._simple_stem` on a character list. -/
def simpleStemL (w : List Char) : List Char :=
  if w.length ≤ 2 then w
  else if endsL w ['i', 'e', 's'] && decide (w.length > 4) then
    w.take (w.length - 3) ++ ['y']
  else if endsL w ['e', 's'] && decide (w.length > 3) && !endsL w ['s', 'e', 's'] then
    w.take (w.length - 2)
  else if endsL w ['s'] && decide (w.length > 2) && !endsL w ['s', 's'] then
    w.take (w.length - 1)
  else if endsL w ['i', 'n', 'g'] && decide (w.length > 4) then
    w.take (w.length - 3)
  else if endsL w ['e', 'd'] && decide (w.length > 3) then
    w.take (w.length - 2)
  else w

/-- String-level `_simple_stem`. -/
def simpleStem (w : String) : String := String.mk (simpleStemL w.data)

/-- Model of `Category.objects.get(name=n, is_system=True)` guarded by
`except Category.DoesNotExist`: first (by spec §3 uniqueness, the only)
system entry with exactly that name. -/
def findSystemCat (catalog : List Category) (n : String) : Option Category :=
  catalog.find? (fun c => c.name = n && c.isSystem)

/-- Model of `Category.objects.filter(name=n, user=u).first()`. -/
def findUserCat (catalog : List Category) (n : String) (u : Nat) : Option Category :=
  catalog.find? (fun c => c.name = n && c.userId = some u)

/-- Keyword rule table of `_rule_based_categorization`, in declaration
order (Python dicts preserve insertion order). -/
def rules : List (String × List String) := [
  ("Groceries", ["walmart", "whole foods", "trader joe", "safeway", "kroger", "costco",
                 "grocery", "supermarket", "food market", "aldi", "target food",
                 "food store", "market"]),
  ("Dining", ["starbucks", "coffee", "restaurant", "mcdonald", "chipotle", "subway",
              "pizza", "burger", "cafe", "dining", "lunch", "dinner", "breakfast",
              "taco bell", "wendy", "dunkin", "panera"]),
  ("Transportation", ["petrol", "gasoline", "gas station", "fuel", "shell", "chevron",
                      "bp", "exxon", "uber", "lyft", "parking", "car wash", "auto",
                      "oil change", "taxi", "metro", "transit", "vehicle", "car service"]),
  ("Housing", ["rent", "mortgage", "lease", "landlord", "apartment", "house payment",
               "hoa", "property", "housing", "rental", "condo"]),
  ("Income", ["salary", "payroll", "paycheck", "wage", "scholarship", "grant",
              "bonus", "commission", "freelance", "income", "stipend", "award", "earning"]),
  ("Shopping", ["amazon", "shopping", "shop", "retail", "best buy", "target store",
                "mall", "nike", "clothing", "online order"]),
  ("Utilities", ["electric", "electricity", "water", "internet", "phone bill", "cable",
                 "utility", "verizon", "att", "comcast", "spectrum"]),
  ("Entertainment", ["netflix", "spotify", "hulu", "disney", "hbo", "movie",
                     "concert", "gaming", "entertainment", "streaming", "music"]),
  ("Healthcare", ["pharmacy", "cvs", "walgreen", "doctor", "dentist", "hospital",
                  "medical", "health", "prescription", "clinic", "eye", "checkup",
                  "check up", "exam", "vision", "optical", "therapy", "treatment",
                  "dermatology", "dermatologist", "skin care"]),
  ("Fitness", ["gym", "fitness", "yoga", "workout", "trainer", "exercise", "sport", "athlete"]),
  ("Travel", ["hotel", "airbnb", "airline", "flight", "travel", "vacation", "booking",
              "trip", "tour", "resort", "cruise", "holiday", "destination", "getaway"]),
  ("Insurance", ["insurance", "policy", "premium", "coverage"]),
  ("Subscriptions", ["subscription", "membership", "monthly fee"]),
  ("Education", ["tuition", "school", "textbook", "course", "udemy", "training", "education"]),
  ("Pets", ["pet store", "pet shop", "vet", "veterinary", "dog food", "cat food",
            "pet food", "pet supply", "animal hospital", "pet grooming", "pet"]),
  ("Investment", ["stock", "401k", "investment", "ira", "brokerage", "portfolio",
                  "share", "equity", "mutual fund", "etf", "bond", "crypto", "bitcoin",
                  "trading", "stock market"]),
  ("Charity", ["donation", "charity", "church", "fundraiser", "charitable"]),
  ("Taxes", ["tax", "irs", "accountant", "tax payment"]),
  ("Personal Care", ["salon", "spa", "haircut", "massage", "cosmetic", "beauty",
                     "skin", "facial", "manicure", "pedicure", "skincare", "skin treatment"])]

/-- Per-keyword step of `_rule_based_categorization`: the exact whole-word
regex pass (confidence 0.95) and, when it does not produce a catalog hit,
the stem pass for single-word keywords (confidence 0.90). A match whose
category name misses the catalog is skipped (`except ...: pass`). -/
def ruleKeywordHit (catalog : List Category) (descLower : List Char)
    (stemmedDescWords : List (List Char)) (catName : String) (kw : String) :
    Option (Category × ℚ) :=
  let exact : Option (Category × ℚ) :=
    if wholeWord kw.data descLower then
      match findSystemCat catalog catName with
      | some c => some (c, 19/20)
      | none => none
    else none
  match exact with
  | some r => some r
  | none =>
    if kw.data.any isSpaceChar then none
    else if stemmedDescWords.contains (simpleStemL kw.data) then
      match findSystemCat catalog catName with
      | some c => some (c, 9/10)
      | none => none
    else none

/-- The rule table flattened to (category name, keyword) pairs in scan order. -/
def ruleItems : List (String × String) :=
  rules.flatMap (fun p => p.2.map (fun kw => (p.1, kw)))

/-- Model of `TransactionCategorizer._rule_based_categorization`. -/
def ruleBasedCategorization (catalog : List Category) (description : String) :
    Option Category × ℚ :=
  let descLower := lowerL description.data
  let stemmedDescWords := (wordTokens descLower).map simpleStemL
  match ruleItems.findSome?
      (fun p => ruleKeywordHit catalog descLower stemmedDescWords p.1 p.2) with
  | some (c, conf) => (some c, conf)
  | none => (none, 0)

/-- One fuzzy pattern row of `_fuzzy_category_match`. -/
structure FuzzyPattern where
  name : String
  keywords : List String
  indicators : List String
deriving DecidableEq, Repr

/-- Fuzzy pattern table, in declaration order. -/
def patterns : List FuzzyPattern := [
  ⟨"Investment",
   ["stock", "invest", "trading", "portfolio", "equity", "bond", "fund",
    "crypto", "bitcoin", "forex", "market", "asset", "401", "ira", "roth"],
   ["buy", "sell", "trade", "exchange", "broker", "dividend", "capital"]⟩,
  ⟨"Healthcare",
   ["doctor", "medical", "health", "hospital", "clinic", "pharmacy",
    "dental", "vision", "therapy", "treatment", "surgery", "medicine",
    "prescription", "lab", "test", "exam", "checkup", "vaccination"],
   ["appointment", "visit", "consultation", "procedure", "injection"]⟩,
  ⟨"Personal Care",
   ["salon", "spa", "beauty", "hair", "nail", "skin", "facial", "massage",
    "manicure", "pedicure", "wax", "laser", "botox", "cosmetic", "makeup"],
   ["treatment", "service", "appointment", "session"]⟩,
  ⟨"Travel",
   ["hotel", "flight", "airline", "vacation", "trip", "travel", "tour",
    "resort", "booking", "airbnb", "cruise", "ticket", "passport"],
   ["booking", "reservation", "fare", "accommodation"]⟩,
  ⟨"Dining",
   ["restaurant", "cafe", "food", "dining", "pizza", "burger", "coffee",
    "lunch", "dinner", "breakfast", "meal", "eat", "drink", "bar"],
   ["delivery", "takeout", "order", "menu", "tip"]⟩,
  ⟨"Groceries",
   ["grocery", "supermarket", "walmart", "costco", "market", "store",
    "food", "produce", "meat", "dairy", "bread", "vegetable", "fruit"],
   ["shopping", "weekly", "monthly", "bulk"]⟩,
  ⟨"Transportation",
   ["uber", "lyft", "taxi", "gas", "fuel", "petrol", "parking", "metro",
    "bus", "train", "car", "vehicle", "auto", "oil", "tire", "mechanic"],
   ["service", "repair", "maintenance", "wash", "change"]⟩,
  ⟨"Housing",
   ["rent", "mortgage", "apartment", "house", "home", "lease", "property",
    "landlord", "housing", "condo", "realty", "real estate"],
   ["payment", "monthly", "deposit", "fee"]⟩,
  ⟨"Utilities",
   ["electric", "water", "gas", "internet", "phone", "cable", "wifi",
    "utility", "bill", "energy", "power", "heating", "cooling"],
   ["bill", "service", "monthly", "provider"]⟩,
  ⟨"Entertainment",
   ["netflix", "spotify", "hulu", "movie", "concert", "game", "gaming",
    "entertainment", "music", "streaming", "ticket", "event", "show"],
   ["subscription", "membership", "pass"]⟩,
  ⟨"Shopping",
   ["amazon", "store", "shop", "retail", "mall", "online", "purchase",
    "clothing", "electronics", "appliance", "furniture", "book"],
   ["order", "delivery", "shipping"]⟩,
  ⟨"Education",
   ["school", "college", "university", "tuition", "course", "class",
    "education", "textbook", "training", "learning", "study"],
   ["fee", "payment", "enrollment", "semester"]⟩,
  ⟨"Fitness",
   ["gym", "fitness", "yoga", "workout", "exercise", "sport", "trainer",
    "athletic", "crossfit", "pilates", "martial", "boxing"],
   ["membership", "class", "session", "training"]⟩,
  ⟨"Insurance",
   ["insurance", "policy", "coverage", "premium", "claim", "auto",
    "health", "life", "dental", "vision", "disability"],
   ["payment", "monthly", "annual", "renewal"]⟩,
  ⟨"Income",
   ["salary", "paycheck", "wage", "income", "earning", "bonus",
    "commission", "scholarship", "grant", "stipend", "award", "refund"],
   ["deposit", "payment", "received", "transfer"]⟩,
  ⟨"Subscriptions",
   ["subscription", "membership", "monthly", "annual", "recurring",
    "premium", "plus", "pro", "service"],
   ["renewal", "auto", "recurring"]⟩,
  ⟨"Pets",
   ["pet", "dog", "cat", "animal", "vet", "veterinary", "grooming",
    "kennel", "boarding", "food", "toy", "supply"],
   ["care", "service", "clinic", "hospital"]⟩,
  ⟨"Charity",
   ["donation", "charity", "church", "temple", "mosque", "nonprofit",
    "foundation", "relief", "fund", "cause", "giving"],
   ["contribution", "gift", "support"]⟩,
  ⟨"Taxes",
   ["tax", "irs", "federal", "state", "property", "income",
    "accountant", "filing", "return"],
   ["payment", "quarterly", "annual", "preparation"]⟩]

/-- Fuzzy score of one category pattern: +2 per keyword substring hit,
+1 per indicator substring hit, +1 per distinct description word that is
literally a keyword (Python set intersection, so keywords deduplicated). -/
def fuzzyScore (descLower : List Char) (descWords : List (List Char))
    (p : FuzzyPattern) : Nat :=
  2 * p.keywords.countP (fun k => hasSub k.data descLower)
    + p.indicators.countP (fun k => hasSub k.data descLower)
    + ((p.keywords.map (fun k => k.data)).dedup.countP (fun k => descWords.contains k))

/-- Categories with positive score, in table order (the `scores` dict). -/
def positiveScores (descLower : List Char) (descWords : List (List Char)) :
    List (String × Nat) :=
  patterns.filterMap (fun p =>
    let s := fuzzyScore descLower descWords p
    if s > 0 then some (p.name, s) else none)

/-- One step of the maximum search over the `scores` dict. -/
def bestStep (best : Option (String × Nat)) (cur : String × Nat) :
    Option (String × Nat) :=
  match best with
  | none => some cur
  | some b => if cur.2 > b.2 then some cur else some b

/-- Python `max(scores, key=scores.get)`: first entry with the maximal
score, in dict insertion order. -/
def bestOf (l : List (String × Nat)) : Option (String × Nat) :=
  l.foldl bestStep none

/-- Model of `TransactionCategorizer._fuzzy_category_match`. -/
def fuzzyCategoryMatch (catalog : List Category) (description : String) :
    Option Category × ℚ :=
  let descLower := lowerL description.data
  let descWords := splitWs descLower
  match bestOf (positiveScores descLower descWords) with
  | none => (none, 0)
  | some (nm, s) =>
    let conf : ℚ := min (85/100) ((s : ℚ) * (15/100))
    if conf > 40/100 then
      match findSystemCat catalog nm with
      | some c => (some c, conf)
      | none => (none, 0)
    else (none, 0)

/-- Outcome of the statistical stage, abstracted: `none` when no model is
available even after the lazy load/train, or when transform/predict raised
(the surrounding try/except); otherwise the predicted label together with
the top class probability `max(probabilities)`. -/
def MLOracle : Type := String → Option (String × ℚ)

/-- Category resolution of the statistical stage: user-scoped entry first
when a user is given, else system-scoped. -/
def mlResolve (catalog : List Category) (user : Option Nat) (label : String) :
    Option Category :=
  let uc : Option Category :=
    match user with
    | some u => findUserCat catalog label u
    | none => none
  match uc with
  | some c => some c
  | none => findSystemCat catalog label

/-- The admitted result of the statistical stage of `predict`: requires top
probability > 0.25, a resolved catalog entry, and strictly more confidence
than both the rule and fuzzy results so far. -/
def mlStage (ml : MLOracle) (catalog : List Category) (user : Option Nat)
    (description : String) (ruleConf fuzzyConf : ℚ) : Option (Category × ℚ) :=
  match ml description with
  | none => none
  | some (label, p) =>
    if p > 25/100 then
      match mlResolve catalog user label with
      | some c => if p > max ruleConf fuzzyConf then some (c, p) else none
      | none => none
    else none

/-- Model of `TransactionCategorizer.predict`. -/
def predict (ml : MLOracle) (catalog : List Category) (user : Option Nat)
    (description : String) : Option Category × ℚ :=
  let r := ruleBasedCategorization catalog description
  if r.2 > 85/100 then r
  else
    let f := fuzzyCategoryMatch catalog description
    if f.2 > 40/100 ∧ f.2 > r.2 then f
    else
      match mlStage ml catalog user description r.2 f.2 with
      | some (c, p) => (some c, p)
      | none =>
        if f.1.isSome ∧ f.2 > r.2 then f
        else if r.1.isSome then r
        else
          match findSystemCat catalog "Shopping" with
          | some fb => (some fb, 1/5)
          | none => (none, 0)

/-- Variant of `predict` with the `elif category:` arm of strategy 4
removed; used to state that this arm is dead code. -/
def predictNoRuleHold (ml : MLOracle) (catalog : List Category) (user : Option Nat)
    (description : String) : Option Category × ℚ :=
  let r := ruleBasedCategorization catalog description
  if r.2 > 85/100 then r
  else
    let f := fuzzyCategoryMatch catalog description
    if f.2 > 40/100 ∧ f.2 > r.2 then f
    else
      match mlStage ml catalog user description r.2 f.2 with
      | some (c, p) => (some c, p)
      | none =>
        if f.1.isSome ∧ f.2 > r.2 then f
        else
          match findSystemCat catalog "Shopping" with
          | some fb => (some fb, 1/5)
          | none => (none, 0)

/-- One labeled training example (a description and its category name). -/
structure LabeledExample where
  description : String
  category : String
deriving DecidableEq, Repr

/-- Value held by `self.vectorizer`: the `TfidfVectorizer(...)` object,
first unfitted (assigned before `fit_transform`), then fitted on a corpus. -/
inductive VecRep where
  | unfitted : VecRep
  | fitted : List LabeledExample → VecRep
deriving DecidableEq, Repr

/-- Value held by `self.model`: the `LogisticRegression(...)` object,
first unfitted (assigned before `fit`), then fitted on a corpus. -/
inductive ModelRep where
  | unfitted : ModelRep
  | fitted : List LabeledExample → ModelRep
deriving DecidableEq, Repr

/-- In-memory fields of `TransactionCategorizer` together with the
persisted joblib slots written by `_save_model`. -/
structure CatState where
  model : Option ModelRep
  vectorizer : Option VecRep
  savedModel : Option ModelRep
  savedVectorizer : Option VecRep
deriving DecidableEq, Repr

/-- Oracle describing which sklearn calls succeed on a given corpus:
`splitOk` for the stratified `train_test_split`, `vecFitOk` for
`fit_transform`/`transform` of the vectorizer, `fitOk` for
`LogisticRegression.fit`, and the resulting held-out accuracy. -/
structure SklearnOps where
  splitOk : List LabeledExample → Bool
  vecFitOk : List LabeledExample → Bool
  fitOk : List LabeledExample → Bool
  accuracy : List LabeledExample → ℚ

/-- Result of a `train` call: normal return with the accuracy, or an
exception propagating to the caller; both carry the in-memory and
persisted state at that moment. -/
inductive TrainOutcome where
  | ok : CatState → ℚ → TrainOutcome
  | err : CatState → TrainOutcome
deriving DecidableEq, Repr

/-- Model of the body of `TransactionCategorizer.train` from the point the
corpus is fixed: stratified split, `self.vectorizer = TfidfVectorizer(...)`
then `fit_transform`, `self.model = LogisticRegression(...)` then `fit`,
and finally `_save_model`. Each sklearn call may raise (per `ops`); an
exception propagates with whatever assignments already happened. -/
def trainWith (ops : SklearnOps) (st : CatState) (corpus : List LabeledExample) :
    TrainOutcome :=
  if ops.splitOk corpus then
    let st1 : CatState := { st with vectorizer := some VecRep.unfitted }
    if ops.vecFitOk corpus then
      let st2 : CatState := { st1 with vectorizer := some (VecRep.fitted corpus) }
      let st3 : CatState := { st2 with model := some ModelRep.unfitted }
      if ops.fitOk corpus then
        let st4 : CatState := { st3 with model := some (ModelRep.fitted corpus) }
        let st5 : CatState :=
          { st4 with savedModel := st4.model, savedVectorizer := st4.vectorizer }
        TrainOutcome.ok st5 (ops.accuracy corpus)
      else TrainOutcome.err st3
    else TrainOutcome.err st1
  else TrainOutcome.err st

/-- Term blocks of `_get_default_training_data`, in construction order. -/
def defaultTrainingBlocks : List (String × List String) := [
  ("Groceries",
   ["Walmart", "Whole Foods", "Trader Joes", "Safeway", "Kroger", "Target", "Costco", "Aldi",
    "grocery", "groceries", "supermarket", "food shopping", "weekly shopping",
    "Publix", "Food Lion", "fresh produce", "farmers market", "organic food",
    "bulk food", "food store", "market", "pantry", "vegetables", "fruits",
    "meat market", "dairy", "bakery", "frozen food", "canned goods", "snacks"]),
  ("Dining",
   ["Starbucks", "McDonalds", "Chipotle", "Subway", "Dominos", "Pizza Hut", "Burger King",
    "restaurant", "cafe", "coffee", "lunch", "dinner", "breakfast",
    "Panera", "Olive Garden", "Applebees", "fast food", "takeout",
    "food delivery", "uber eats", "doordash", "dining out", "eat out",
    "Wendys", "Taco Bell", "KFC", "Chick fil A", "Popeyes", "Dunkin"]),
  ("Transportation",
   ["Shell", "Chevron", "gas", "fuel", "Uber", "Lyft", "taxi", "metro", "bus",
    "parking", "car wash", "auto repair", "oil change", "BP", "Exxon",
    "gas station", "ride share", "transit", "subway", "car service"]),
  ("Housing",
   ["rent", "rent payment", "mortgage", "lease", "apartment", "house payment",
    "monthly rent", "rental", "landlord", "property",
    "HOA", "home insurance", "renter insurance", "housing",
    "home repair", "plumbing", "electrical", "HVAC", "roof", "maintenance"]),
  ("Income",
   ["salary", "payroll", "paycheck", "wages", "scholarship", "grant", "award",
    "freelance", "bonus", "commission", "income", "earnings", "stipend",
    "payment received", "direct deposit", "consulting", "contract", "gig", "side hustle"]),
  ("Shopping",
   ["Amazon", "shopping", "Target store", "Best Buy", "Home Depot", "Lowes",
    "Macys", "Nike", "Apple Store", "online order", "purchase",
    "retail", "clothing", "electronics", "shoes", "furniture",
    "mall", "outlet", "department store", "accessories"]),
  ("Utilities",
   ["electric", "water", "gas bill", "internet", "phone bill", "cable",
    "utility", "Verizon", "ATT", "Comcast", "Spectrum", "power bill",
    "heating", "cooling", "energy"]),
  ("Entertainment",
   ["Netflix", "Spotify", "Amazon Prime", "Disney", "HBO", "Hulu",
    "movie", "concert", "theater", "gaming", "entertainment",
    "Apple Music", "YouTube", "streaming", "subscription service"]),
  ("Healthcare",
   ["CVS", "Walgreens", "pharmacy", "doctor", "dentist", "hospital",
    "medical", "prescription", "health", "clinic", "urgent care",
    "physical therapy", "mental health", "eye exam", "dental"]),
  ("Education",
   ["tuition", "student loan", "textbook", "school", "course", "udemy", "training"]),
  ("Fitness",
   ["gym", "yoga", "fitness", "workout", "sports", "trainer", "exercise"]),
  ("Travel",
   ["hotel", "airbnb", "airline", "flight", "vacation", "travel", "booking"]),
  ("Insurance",
   ["insurance", "auto insurance", "health insurance", "life insurance", "policy"]),
  ("Subscriptions",
   ["subscription", "membership", "magazine", "software", "cloud storage"]),
  ("Personal Care",
   ["salon", "haircut", "spa", "massage", "cosmetics", "skincare"]),
  ("Pets",
   ["pet", "vet", "veterinary", "dog", "cat", "pet food", "grooming"]),
  ("Investment",
   ["stock", "401k", "IRA", "investment", "mutual fund", "brokerage"]),
  ("Charity",
   ["donation", "charity", "church", "nonprofit", "fundraiser"]),
  ("Taxes",
   ["tax", "IRS", "federal tax", "state tax", "tax payment", "accountant"])]

/-- Model of `_get_default_training_data`: one labeled example per curated
term, in construction order. -/
def getDefaultTrainingData : List LabeledExample :=
  defaultTrainingBlocks.flatMap (fun p => p.2.map (fun t => ⟨t, p.1⟩))

/-- Corpus selection at the top of `train`: an explicitly provided corpus
is used as is; with none provided, the historical labeled corpus is used
only when it has at least 50 examples, else the synthetic corpus replaces
it entirely. -/
def selectCorpus (provided : Option (List LabeledExample))
    (historical : List LabeledExample) : List LabeledExample :=
  match provided with
  | some d => d
  | none => if historical.length < 50 then getDefaultTrainingData else historical

/-- Model of `TransactionCategorizer.train`. -/
def train (ops : SklearnOps) (st : CatState) (provided : Option (List LabeledExample))
    (historical : List LabeledExample) : TrainOutcome :=
  trainWith ops st (selectCorpus provided historical)

/-- Statistical-stage oracle for runs where no model is available. -/
def mlNone : MLOracle := fun _ => none

/-- Catalog fixture: system entries for Investment and Shopping. -/
def catInvShop : List Category :=
  [⟨1, "Investment", none, true⟩, ⟨2, "Shopping", none, true⟩]

/-- Catalog fixture: a user-scoped Groceries entry of user 7 next to the
system Groceries entry. -/
def catGrocUser : List Category :=
  [⟨1, "Groceries", some 7, false⟩, ⟨2, "Groceries", none, true⟩]

/-- Catalog fixture: only the system Shopping entry. -/
def catShopOnly : List Category := [⟨9, "Shopping", none, true⟩]

/-- Catalog fixture: only the system Dining entry. -/
def catDining : List Category := [⟨3, "Dining", none, true⟩]

/-- Catalog fixture: system entries for Groceries and Entertainment. -/
def catGrocEnt : List Category :=
  [⟨1, "Groceries", none, true⟩, ⟨2, "Entertainment", none, true⟩]

/-- Statistical-stage oracle fixture: always predicts Shopping at 0.90. -/
def mlShop9 : MLOracle := fun _ => some ("Shopping", 9/10)

/-- Sklearn oracle fixture: every call succeeds. -/
def opsAllOk : SklearnOps :=
  ⟨fun _ => true, fun _ => true, fun _ => true, fun _ => 0⟩

/-- Sklearn oracle fixture: split and vectorization succeed, classifier
fit raises (as on a single-class corpus). -/
def opsFitFail : SklearnOps :=
  ⟨fun _ => true, fun _ => true, fun _ => false, fun _ => 0⟩

/-- A previously trained corpus. -/
def corpusOld : List LabeledExample := [⟨"rent payment", "Housing"⟩]

/-- A degenerate single-class corpus. -/
def corpusOne : List LabeledExample := [⟨"a", "X"⟩, ⟨"b", "X"⟩]

/-- Categorizer state fixture: a model trained on `corpusOld` loaded in
memory and persisted. -/
def stLoaded : CatState :=
  ⟨some (ModelRep.fitted corpusOld), some (VecRep.fitted corpusOld),
   some (ModelRep.fitted corpusOld), some (VecRep.fitted corpusOld)⟩

/-- Empty categorizer state fixture. -/
def stEmpty : CatState := ⟨none, none, none, none⟩

/-- A historical corpus with exactly 49 labeled examples. -/
def hist49 : List LabeledExample := List.replicate 49 ⟨"rent", "Housing"⟩

/- Helper lemmas about catalog lookup and the rule scan. -/

theorem findSystemCat_spec {catalog : List Category} {n : String} {c : Category}
    (h : findSystemCat catalog n = some c) :
    c ∈ catalog ∧ c.isSystem = true ∧ c.name = n := by
  have hm := List.mem_of_find?_eq_some h
  have hp := List.find?_some h
  simp only [Bool.and_eq_true, decide_eq_true_eq] at hp
  exact ⟨hm, hp.2, hp.1⟩

theorem ruleKeywordHit_eq_some {catalog : List Category} {dl : List Char}
    {sw : List (List Char)} {nm kw : String} {c : Category} {q : ℚ}
    (h : ruleKeywordHit catalog dl sw nm kw = some (c, q)) :
    (q = 19/20 ∨ q = 9/10) ∧ findSystemCat catalog nm = some c := by
  unfold ruleKeywordHit at h
  by_cases hw : wholeWord kw.data dl = true <;>
  by_cases hsp : kw.data.any isSpaceChar = true <;>
  by_cases hst : simpleStemL kw.data ∈ sw <;>
  cases hfind : findSystemCat catalog nm <;>
  simp [hw, hsp, hst, hfind] at h <;>
  (obtain ⟨rfl, rfl⟩ := h; simp)

theorem ruleBased_eq_some {catalog : List Category} {d : String} {c : Category} {q : ℚ}
    (h : ruleBasedCategorization catalog d = (some c, q)) :
    (q = 19/20 ∨ q = 9/10) ∧ c ∈ catalog ∧ c.isSystem = true := by
  simp only [ruleBasedCategorization] at h
  cases hfs : ruleItems.findSome? (fun p =>
      ruleKeywordHit catalog (lowerL d.data)
        ((wordTokens (lowerL d.data)).map simpleStemL) p.1 p.2) with
  | none => rw [hfs] at h; simp at h
  | some pr =>
    rw [hfs] at h
    obtain ⟨⟨nm, kw⟩, _, hhit⟩ := List.exists_of_findSome?_eq_some hfs
    obtain ⟨c0, q0⟩ := pr
    simp only [Prod.mk.injEq, Option.some.injEq] at h
    obtain ⟨rfl, rfl⟩ := h
    obtain ⟨hq, hfind⟩ := ruleKeywordHit_eq_some hhit
    obtain ⟨hmem, hsys, _⟩ := findSystemCat_spec hfind
    exact ⟨hq, hmem, hsys⟩

theorem ruleBased_dichotomy (catalog : List Category) (d : String) :
    ruleBasedCategorization catalog d = (none, 0) ∨
      ∃ c, ruleBasedCategorization catalog d = (some c, 19/20) ∨
        ruleBasedCategorization catalog d = (some c, 9/10) := by
  rcases hr : ruleBasedCategorization catalog d with ⟨oc, q⟩
  cases oc with
  | none =>
    left
    rw [← hr]
    simp only [ruleBasedCategorization] at hr ⊢
    cases hfs : ruleItems.findSome? (fun p =>
        ruleKeywordHit catalog (lowerL d.data)
          ((wordTokens (lowerL d.data)).map simpleStemL) p.1 p.2) with
    | none => simp [hfs]
    | some pr => rw [hfs] at hr; obtain ⟨c0, q0⟩ := pr; simp at hr
  | some c =>
    right
    refine ⟨c, ?_⟩
    rcases (ruleBased_eq_some hr).1 with h95 | h90
    · exact Or.inl (by rw [h95])
    · exact Or.inr (by rw [h90])

theorem ruleBased_none_of_le {catalog : List Category} {d : String}
    (h : (ruleBasedCategorization catalog d).2 ≤ 85/100) :
    ruleBasedCategorization catalog d = (none, 0) := by
  rcases ruleBased_dichotomy catalog d with h0 | ⟨c, h95 | h90⟩
  · exact h0
  · rw [h95] at h; norm_num at h
  · rw [h90] at h; norm_num at h

/- Helper lemmas about the fuzzy matcher. -/

theorem findUserCat_spec {catalog : List Category} {n : String} {u : Nat} {c : Category}
    (h : findUserCat catalog n u = some c) :
    c ∈ catalog ∧ c.userId = some u ∧ c.name = n := by
  have hm := List.mem_of_find?_eq_some h
  have hp := List.find?_some h
  simp only [Bool.and_eq_true, decide_eq_true_eq] at hp
  exact ⟨hm, hp.2, hp.1⟩

theorem bestStep_eq_some {acc : Option (String × Nat)} {cur x : String × Nat}
    (h : bestStep acc cur = some x) : x = cur ∨ acc = some x := by
  cases acc with
  | none => simp [bestStep] at h; exact Or.inl h.symm
  | some b =>
    simp only [bestStep] at h
    by_cases hgt : cur.2 > b.2
    · rw [if_pos hgt] at h; exact Or.inl (Option.some.inj h).symm
    · rw [if_neg hgt] at h; exact Or.inr (by rw [← h])

theorem foldl_bestStep_mem : ∀ (l : List (String × Nat)) (acc : Option (String × Nat))
    (x : String × Nat), l.foldl bestStep acc = some x → x ∈ l ∨ acc = some x := by
  intro l
  induction l with
  | nil => intro acc x h; simp at h; exact Or.inr (by rw [h])
  | cons c cs ih =>
    intro acc x h
    simp only [List.foldl_cons] at h
    rcases ih (bestStep acc c) x h with hm | hacc
    · exact Or.inl (List.mem_cons_of_mem c hm)
    · rcases bestStep_eq_some hacc with rfl | h0
      · exact Or.inl (List.mem_cons_self x cs)
      · exact Or.inr h0

theorem bestOf_mem {l : List (String × Nat)} {x : String × Nat}
    (h : bestOf l = some x) : x ∈ l := by
  rcases foldl_bestStep_mem l none x h with hm | hacc
  · exact hm
  · simp at hacc

theorem mem_positiveScores {dl : List Char} {dw : List (List Char)} {x : String × Nat}
    (h : x ∈ positiveScores dl dw) :
    ∃ p ∈ patterns, p.name = x.1 ∧ fuzzyScore dl dw p = x.2 ∧ 0 < x.2 := by
  unfold positiveScores at h
  rw [List.mem_filterMap] at h
  obtain ⟨p, hp, hf⟩ := h
  dsimp only at hf
  by_cases hs : fuzzyScore dl dw p > 0
  · rw [if_pos hs] at hf
    have hf2 : (p.name, fuzzyScore dl dw p) = x := Option.some.inj hf
    exact ⟨p, hp, by rw [← hf2], by rw [← hf2], by rw [← hf2]; exact hs⟩
  · rw [if_neg hs] at hf; exact absurd hf (by simp)

theorem fuzzy_eq_some {catalog : List Category} {d : String} {c : Category} {q : ℚ}
    (h : fuzzyCategoryMatch catalog d = (some c, q)) :
    40/100 < q ∧ q ≤ 85/100 ∧ c ∈ catalog ∧ c.isSystem = true ∧
      ∃ nm s, bestOf (positiveScores (lowerL d.data) (splitWs (lowerL d.data))) =
          some (nm, s) ∧
        q = min (85/100) ((s : ℚ) * (15/100)) ∧ findSystemCat catalog nm = some c ∧
        c.name = nm := by
  simp only [fuzzyCategoryMatch] at h
  cases hb : bestOf (positiveScores (lowerL d.data) (splitWs (lowerL d.data))) with
  | none => rw [hb] at h; simp at h
  | some pr =>
    obtain ⟨nm, s⟩ := pr
    rw [hb] at h
    dsimp only at h
    by_cases hconf : min ((85:ℚ)/100) ((s : ℚ) * (15/100)) > 40/100
    · rw [if_pos hconf] at h
      cases hf : findSystemCat catalog nm with
      | none => rw [hf] at h; simp at h
      | some c0 =>
        rw [hf] at h
        simp only [Prod.mk.injEq, Option.some.injEq] at h
        obtain ⟨rfl, rfl⟩ := h
        obtain ⟨hmem, hsys, hname⟩ := findSystemCat_spec hf
        exact ⟨hconf, min_le_left _ _, hmem, hsys, nm, s, rfl, rfl, hf, hname⟩
    · rw [if_neg hconf] at h; simp at h

theorem fuzzy_dichotomy (catalog : List Category) (d : String) :
    fuzzyCategoryMatch catalog d = (none, 0) ∨
      ∃ c q, fuzzyCategoryMatch catalog d = (some c, q) ∧ 40/100 < q := by
  rcases hF : fuzzyCategoryMatch catalog d with ⟨oc, q⟩
  cases oc with
  | some c => exact Or.inr ⟨c, q, rfl, (fuzzy_eq_some hF).1⟩
  | none =>
    left
    simp only [fuzzyCategoryMatch] at hF
    cases hb : bestOf (positiveScores (lowerL d.data) (splitWs (lowerL d.data))) with
    | none => rw [hb] at hF; simp only [Prod.mk.injEq] at hF; rw [hF.2]
    | some pr =>
      obtain ⟨nm, s⟩ := pr
      rw [hb] at hF
      dsimp only at hF
      by_cases hconf : min ((85:ℚ)/100) ((s : ℚ) * (15/100)) > 40/100
      · rw [if_pos hconf] at hF
        cases hf : findSystemCat catalog nm with
        | none => rw [hf] at hF; simp only [Prod.mk.injEq] at hF; rw [hF.2]
        | some c0 => rw [hf] at hF; simp at hF
      · rw [if_neg hconf] at hF; simp only [Prod.mk.injEq] at hF; rw [hF.2]

theorem fuzzy_none_of_le {catalog : List Category} {d : String}
    (h : (fuzzyCategoryMatch catalog d).2 ≤ 40/100) :
    fuzzyCategoryMatch catalog d = (none, 0) := by
  rcases fuzzy_dichotomy catalog d with h0 | ⟨c, q, hq, hgt⟩
  · exact h0
  · rw [hq] at h; exact absurd hgt (not_lt.mpr h)

/- Helper lemma about the statistical stage. -/

theorem mlStage_eq_some {ml : MLOracle} {catalog : List Category} {user : Option Nat}
    {d : String} {rc fc : ℚ} {c : Category} {p : ℚ}
    (h : mlStage ml catalog user d rc fc = some (c, p)) :
    25/100 < p ∧ rc < p ∧ fc < p ∧
      ∃ label, ml d = some (label, p) ∧ mlResolve catalog user label = some c := by
  unfold mlStage at h
  cases hml : ml d with
  | none => rw [hml] at h; simp at h
  | some lp =>
    obtain ⟨label, p0⟩ := lp
    rw [hml] at h
    dsimp only at h
    by_cases h25 : p0 > 25/100
    · rw [if_pos h25] at h
      cases hres : mlResolve catalog user label with
      | none => rw [hres] at h; simp at h
      | some c0 =>
        rw [hres] at h
        dsimp only at h
        by_cases hmax : p0 > max rc fc
        · rw [if_pos hmax] at h
          simp only [Option.some.injEq, Prod.mk.injEq] at h
          obtain ⟨rfl, rfl⟩ := h
          exact ⟨h25, lt_of_le_of_lt (le_max_left _ _) hmax,
            lt_of_le_of_lt (le_max_right _ _) hmax, label, rfl, hres⟩
        · rw [if_neg hmax] at h; simp at h
    · rw [if_neg h25] at h; simp at h

/- Claim theorems. -/

/-- Counterexample to claim C4: the spec asserts `stem("messes") == "mess"`,
but `_simple_stem` leaves the "es"-rule blocked by the "ses" guard and then
the "s"-rule (whose guard only covers "ss") strips one "s", giving
"messe". -/
theorem c4_messes_cex : simpleStem "messes" = "messe" ∧ simpleStem "messes" ≠ "mess" := by
  constructor <;> decide

/-- Claim C4 (corrected): the stemmer maps the boundary-case words as the
code does: stem "groceries" = "grocery", stem "boxes" = "box",
stem "class" = "class" (double-s protected), but stem "messes" = "messe",
not the "mess" stated in the spec. -/
theorem c4_stem_boundary_values :
    simpleStem "groceries" = "grocery" ∧ simpleStem "boxes" = "box" ∧
      simpleStem "messes" = "messe" ∧ simpleStem "class" = "class" := by
  refine ⟨?_, ?_, ?_, ?_⟩ <;> decide

/-- Counterexample to claim C8: stemming is not idempotent for every word;
"things" stems to "thing", which stems again to "th" under the "ing"
rule. -/
theorem c8_not_idempotent_cex :
    simpleStem (simpleStem "things") ≠ simpleStem "things" ∧
      simpleStem "things" = "thing" ∧ simpleStem "thing" = "th" := by
  refine ⟨?_, ?_, ?_⟩ <;> decide

/-- Claim C8 (corrected): `stem(stem(w)) == stem(w)` fails in general (see
the counterexample) but holds on the boundary-case words the spec lists as
tested: groceries, boxes, messes, class. -/
theorem c8_idempotent_on_spec_words :
    simpleStem (simpleStem "groceries") = simpleStem "groceries" ∧
      simpleStem (simpleStem "boxes") = simpleStem "boxes" ∧
      simpleStem (simpleStem "messes") = simpleStem "messes" ∧
      simpleStem (simpleStem "class") = simpleStem "class" := by
  refine ⟨?_, ?_, ?_, ?_⟩ <;> decide

/-- Claim C9 (confirmed): `train` called without a corpus substitutes the
synthetic default corpus entirely when the historical labeled corpus has
fewer than 50 examples (such as exactly 49), and uses the historical
corpus when it has 50 or more examples. -/
theorem c9_corpus_selection (ops : SklearnOps) (st : CatState)
    (historical : List LabeledExample) :
    (historical.length = 49 →
      selectCorpus none historical = getDefaultTrainingData ∧
      train ops st none historical = trainWith ops st getDefaultTrainingData) ∧
    (50 ≤ historical.length →
      selectCorpus none historical = historical ∧
      train ops st none historical = trainWith ops st historical) := by
  constructor
  · intro h49
    have hlt : historical.length < 50 := by omega
    constructor
    · simp [selectCorpus, hlt]
    · simp [train, selectCorpus, hlt]
  · intro h50
    have hlt : ¬ historical.length < 50 := by omega
    constructor
    · simp [selectCorpus, hlt]
    · simp [train, selectCorpus, hlt]

/-- Witness for C9 at a concrete 49-example historical corpus. -/
theorem c9_corpus_selection_witness :
    selectCorpus none hist49 = getDefaultTrainingData ∧
      train opsAllOk stEmpty none hist49 = trainWith opsAllOk stEmpty getDefaultTrainingData :=
  (c9_corpus_selection opsAllOk stEmpty hist49).1 (by simp [hist49])

/-- Claim C10 (confirmed): every non-none rule-matcher result carries
confidence 0.95 or 0.90, both above the 0.85 short-circuit threshold, so
whenever arbitration proceeds past the rule stage the held rule result is
exactly (none, 0), and the `elif category:` arm of strategy 4 in `predict`
is unreachable: removing it does not change `predict`. -/
theorem c10_rule_dead_branch (ml : MLOracle) (catalog : List Category)
    (user : Option Nat) (d : String) :
    (∀ c q, ruleBasedCategorization catalog d = (some c, q) →
      q = 19/20 ∨ q = 9/10) ∧
    ((ruleBasedCategorization catalog d).2 ≤ 85/100 →
      ruleBasedCategorization catalog d = (none, 0)) ∧
    predict ml catalog user d = predictNoRuleHold ml catalog user d := by
  refine ⟨fun c q h => (ruleBased_eq_some h).1, fun h => ruleBased_none_of_le h, ?_⟩
  simp only [predict, predictNoRuleHold]
  by_cases h85 : (ruleBasedCategorization catalog d).2 > 85/100
  · rw [if_pos h85, if_pos h85]
  · have hr := ruleBased_none_of_le (not_lt.mp h85)
    rw [if_neg h85, if_neg h85]
    by_cases hfc : (fuzzyCategoryMatch catalog d).2 > 40/100 ∧
        (fuzzyCategoryMatch catalog d).2 > (ruleBasedCategorization catalog d).2
    · rw [if_pos hfc, if_pos hfc]
    · rw [if_neg hfc, if_neg hfc]
      cases hms : mlStage ml catalog user d (ruleBasedCategorization catalog d).2
          (fuzzyCategoryMatch catalog d).2 with
      | some pr => rfl
      | none =>
        by_cases hfb : (fuzzyCategoryMatch catalog d).1.isSome = true ∧
            (fuzzyCategoryMatch catalog d).2 > (ruleBasedCategorization catalog d).2
        · rw [if_pos hfb, if_pos hfb]
        · rw [if_neg hfb, if_neg hfb, hr]
          simp

/-- Witness for C10 at a concrete input with no rule hit. -/
theorem c10_rule_dead_branch_witness :
    ruleBasedCategorization catShopOnly "zzz" = (none, 0) ∧
      predict mlNone catShopOnly none "zzz" = predictNoRuleHold mlNone catShopOnly none "zzz" :=
  ⟨(c10_rule_dead_branch mlNone catShopOnly none "zzz").2.1 (by with_unfolding_all decide),
   (c10_rule_dead_branch mlNone catShopOnly none "zzz").2.2⟩

/-- Counterexample to claim C1: at description "buy sell trade" the rule
stage scores 0, the fuzzy stage scores Investment at 0.45 (> 0.40), and a
statistical oracle reports Shopping at probability 0.90 (> 0.25, catalog
entry present, above both other confidences) — yet `predict` returns the
fuzzy Investment result: the fuzzy hit is returned immediately, not
tentatively held for the statistical stage to beat. -/
theorem c1_fuzzy_not_tentative_cex :
    (ruleBasedCategorization catInvShop "buy sell trade").2 ≤ 85/100 ∧
    (fuzzyCategoryMatch catInvShop "buy sell trade").2 > 40/100 ∧
    (fuzzyCategoryMatch catInvShop "buy sell trade").2 >
      (ruleBasedCategorization catInvShop "buy sell trade").2 ∧
    mlShop9 "buy sell trade" = some ("Shopping", 9/10) ∧
    (9/10 : ℚ) > 25/100 ∧
    findSystemCat catInvShop "Shopping" = some ⟨2, "Shopping", none, true⟩ ∧
    (9/10 : ℚ) > (ruleBasedCategorization catInvShop "buy sell trade").2 ∧
    (9/10 : ℚ) > (fuzzyCategoryMatch catInvShop "buy sell trade").2 ∧
    predict mlShop9 catInvShop none "buy sell trade" =
      (some ⟨1, "Investment", none, true⟩, 9/20) ∧
    predict mlShop9 catInvShop none "buy sell trade" ≠
      (some ⟨2, "Shopping", none, true⟩, 9/10) := by
  with_unfolding_all decide

/-- Claim C1 (corrected): when the rule confidence is at most 0.85 and the
fuzzy confidence exceeds both 0.40 and the rule confidence, `predict`
returns the fuzzy result immediately; the statistical classifier is
consulted only when the fuzzy stage fails that test. -/
theorem c1_fuzzy_admitted_returns_immediately (ml : MLOracle) (catalog : List Category)
    (user : Option Nat) (d : String)
    (h85 : (ruleBasedCategorization catalog d).2 ≤ 85/100)
    (h40 : (fuzzyCategoryMatch catalog d).2 > 40/100)
    (hgt : (fuzzyCategoryMatch catalog d).2 > (ruleBasedCategorization catalog d).2) :
    predict ml catalog user d = fuzzyCategoryMatch catalog d := by
  simp only [predict]
  rw [if_neg (not_lt.mpr h85), if_pos ⟨h40, hgt⟩]

/-- Witness for the corrected C1 at a concrete admitted fuzzy hit. -/
theorem c1_fuzzy_admitted_returns_immediately_witness :
    predict mlShop9 catInvShop none "buy sell trade" =
      (some ⟨1, "Investment", none, true⟩, 9/20) :=
  (c1_fuzzy_admitted_returns_immediately mlShop9 catInvShop none "buy sell trade"
      (by with_unfolding_all decide) (by with_unfolding_all decide)
      (by with_unfolding_all decide)).trans (by with_unfolding_all rfl)

/-- Counterexample to claim C2: with a user-scoped Groceries entry of the
calling user 7 alongside the system-scoped one, the rule-matcher stage of
`predict` ("walmart") returns the system-scoped entry: the rule stage
resolves names with `is_system=True` only and never prefers the user
scope. -/
theorem c2_user_scope_cex :
    findUserCat catGrocUser "Groceries" 7 = some ⟨1, "Groceries", some 7, false⟩ ∧
    findSystemCat catGrocUser "Groceries" = some ⟨2, "Groceries", none, true⟩ ∧
    predict mlNone catGrocUser (some 7) "walmart" =
      (some ⟨2, "Groceries", none, true⟩, 19/20) ∧
    (⟨2, "Groceries", none, true⟩ : Category).userId = none := by
  with_unfolding_all decide

/-- Claim C2 (corrected): rule-stage and fuzzy-stage results are always
system-scoped entries resolved by exact name equality (so neither
user-scope preference nor case-insensitive matching applies there); only
the statistical stage prefers a user-scoped entry, which it does whenever
one exactly matches the predicted label. -/
theorem c2_scope_resolution_by_stage (catalog : List Category) (d label : String)
    (u : Nat) :
    (∀ c q, ruleBasedCategorization catalog d = (some c, q) → c.isSystem = true) ∧
    (∀ c q, fuzzyCategoryMatch catalog d = (some c, q) → c.isSystem = true) ∧
    (∀ c, findSystemCat catalog label = some c →
      c.name = label ∧ c.isSystem = true ∧ c ∈ catalog) ∧
    (∀ c, findUserCat catalog label u = some c →
      c.name = label ∧ c.userId = some u ∧ c ∈ catalog) ∧
    (∀ c, findUserCat catalog label u = some c →
      mlResolve catalog (some u) label = some c) := by
  refine ⟨fun c q h => (ruleBased_eq_some h).2.2,
    fun c q h => (fuzzy_eq_some h).2.2.2.1, fun c h => ?_, fun c h => ?_, fun c h => ?_⟩
  · obtain ⟨hm, hs, hn⟩ := findSystemCat_spec h
    exact ⟨hn, hs, hm⟩
  · obtain ⟨hm, hu, hn⟩ := findUserCat_spec h
    exact ⟨hn, hu, hm⟩
  · simp [mlResolve, h]

/-- Witness for the corrected C2 at the concrete two-entry catalog. -/
theorem c2_scope_resolution_by_stage_witness :
    (⟨2, "Groceries", none, true⟩ : Category).isSystem = true ∧
      mlResolve catGrocUser (some 7) "Groceries" =
        some ⟨1, "Groceries", some 7, false⟩ :=
  ⟨(c2_scope_resolution_by_stage catGrocUser "walmart" "Groceries" 7).1 _ (19/20)
      (by with_unfolding_all rfl),
   (c2_scope_resolution_by_stage catGrocUser "walmart" "Groceries" 7).2.2.2.2 _
      (by with_unfolding_all rfl)⟩

/-- Counterexample to claim C3: on a single-class corpus the classifier
fit raises after `self.vectorizer` and `self.model` were already
reassigned, so `train` surfaces the failure and persists nothing, but the
prior in-memory model and vectorizer do not remain unchanged: the model is
left as an unfitted estimator and the vectorizer as one fitted to the
failed corpus. -/
theorem c3_partial_state_cex :
    trainWith opsFitFail stLoaded corpusOne =
      TrainOutcome.err ⟨some ModelRep.unfitted, some (VecRep.fitted corpusOne),
        some (ModelRep.fitted corpusOld), some (VecRep.fitted corpusOld)⟩ ∧
    some ModelRep.unfitted ≠ stLoaded.model ∧
    some (VecRep.fitted corpusOne) ≠ stLoaded.vectorizer := by
  refine ⟨?_, ?_, ?_⟩ <;> decide

/-- Claim C3 (corrected): every failing `train` run surfaces a hard
failure and persists nothing — the saved model slots are exactly the prior
ones — and the in-memory state is additionally unchanged when the failure
happens at the stratified split; a failure during vectorization or fitting
still persists nothing, but may leave the in-memory model/vectorizer
replaced (see the counterexample). -/
theorem c3_train_failure_guarantees (ops : SklearnOps) (st : CatState)
    (corpus : List LabeledExample) :
    (∀ st', trainWith ops st corpus = TrainOutcome.err st' →
      st'.savedModel = st.savedModel ∧ st'.savedVectorizer = st.savedVectorizer ∧
      (ops.splitOk corpus = false → st' = st)) ∧
    ((ops.splitOk corpus = false ∨ ops.vecFitOk corpus = false ∨
        ops.fitOk corpus = false) →
      ∃ st', trainWith ops st corpus = TrainOutcome.err st' ∧
        st'.savedModel = st.savedModel ∧ st'.savedVectorizer = st.savedVectorizer) := by
  constructor
  · intro st' h
    unfold trainWith at h
    by_cases hsp : ops.splitOk corpus = true
    · rw [if_pos hsp] at h
      by_cases hv : ops.vecFitOk corpus = true
      · rw [if_pos hv] at h
        by_cases hf : ops.fitOk corpus = true
        · rw [if_pos hf] at h; exact absurd h (by simp)
        · rw [if_neg hf] at h
          injection h with h
          refine ⟨by rw [← h], by rw [← h], fun hq => ?_⟩
          rw [hq] at hsp; cases hsp
      · rw [if_neg hv] at h
        injection h with h
        refine ⟨by rw [← h], by rw [← h], fun hq => ?_⟩
        rw [hq] at hsp; cases hsp
    · rw [if_neg hsp] at h
      injection h with h
      exact ⟨by rw [← h], by rw [← h], fun _ => h.symm⟩
  · intro hfail
    unfold trainWith
    by_cases hsp : ops.splitOk corpus = true
    · rw [if_pos hsp]
      by_cases hv : ops.vecFitOk corpus = true
      · rw [if_pos hv]
        by_cases hf : ops.fitOk corpus = true
        · rcases hfail with h | h | h <;> simp_all
        · rw [if_neg hf]; exact ⟨_, rfl, rfl, rfl⟩
      · rw [if_neg hv]; exact ⟨_, rfl, rfl, rfl⟩
    · rw [if_neg hsp]; exact ⟨_, rfl, rfl, rfl⟩

/-- Witness for the corrected C3: the failing single-class run leaves both
persisted slots untouched. -/
theorem c3_train_failure_guarantees_witness :
    ∃ st', trainWith opsFitFail stLoaded corpusOne = TrainOutcome.err st' ∧
      st'.savedModel = stLoaded.savedModel ∧
      st'.savedVectorizer = stLoaded.savedVectorizer :=
  (c3_train_failure_guarantees opsFitFail stLoaded corpusOne).2 (Or.inr (Or.inr rfl))

/-- Counterexample to claim C5: at description "tip" the Dining pattern
scores 1 (> 0) and is the best score, yet `_fuzzy_category_match` returns
(none, 0) because the capped confidence 0.15 fails the 0.40 admission
threshold, which the matcher applies internally — not only the caller. -/
theorem c5_threshold_inside_matcher_cex :
    bestOf (positiveScores (lowerL "tip".data) (splitWs (lowerL "tip".data))) =
      some ("Dining", 1) ∧
    findSystemCat catDining "Dining" = some ⟨3, "Dining", none, true⟩ ∧
    fuzzyCategoryMatch catDining "tip" = (none, 0) ∧
    min ((85:ℚ)/100) ((1:ℚ) * (15/100)) = 15/100 ∧ ¬ ((15:ℚ)/100 > 40/100) := by
  with_unfolding_all decide

/-- Claim C5 (corrected): the fuzzy matcher returns (none, 0) when no
category scores above 0, and also whenever the capped confidence fails the
0.40 threshold or the best category has no system catalog entry; whenever
it does return a category, the confidence is min(0.85, best score * 0.15)
and is already above 0.40 — the admission threshold is applied inside the
matcher (the check in `predict` merely repeats it). -/
theorem c5_fuzzy_return_characterization (catalog : List Category) (d : String) :
    ((∀ p ∈ patterns, fuzzyScore (lowerL d.data) (splitWs (lowerL d.data)) p = 0) →
      fuzzyCategoryMatch catalog d = (none, 0)) ∧
    (∀ c q, fuzzyCategoryMatch catalog d = (some c, q) →
      40/100 < q ∧ q ≤ 85/100 ∧ c.isSystem = true ∧ c ∈ catalog ∧
      ∃ p ∈ patterns, p.name = c.name ∧
        q = min (85/100)
          ((fuzzyScore (lowerL d.data) (splitWs (lowerL d.data)) p : ℚ) * (15/100))) := by
  constructor
  · intro hz
    have hnil : positiveScores (lowerL d.data) (splitWs (lowerL d.data)) = [] := by
      unfold positiveScores
      rw [List.filterMap_eq_nil_iff]
      intro p hp
      dsimp only
      rw [if_neg]
      simp [hz p hp]
    simp [fuzzyCategoryMatch, hnil, bestOf]
  · intro c q h
    obtain ⟨h40, h85, hmem, hsys, nm, s, hb, hq, hf, hname⟩ := fuzzy_eq_some h
    obtain ⟨p, hp, hpname, hpscore, _⟩ := mem_positiveScores (bestOf_mem hb)
    exact ⟨h40, h85, hsys, hmem, p, hp, by rw [hpname, hname],
      by rw [hq, hpscore]⟩

/-- Witness for the corrected C5 at a description with no fuzzy cues. -/
theorem c5_fuzzy_return_characterization_witness :
    fuzzyCategoryMatch catDining "zzz" = (none, 0) :=
  (c5_fuzzy_return_characterization catDining "zzz").1 (by decide)

/-- Claim C6 (confirmed): when the rule stage fails its 0.85 threshold,
the fuzzy stage fails its 0.40 threshold, and the statistical stage admits
nothing (its probability/catalog/comparison test fails), `predict` returns
the designated fallback category Shopping with confidence exactly 0.20
when it exists in the system catalog and (none, 0) when it is absent; and
(none, 0) is returned under no other condition — it forces all three
stages empty and the fallback absent. -/
theorem c6_fallback_guarantee (ml : MLOracle) (catalog : List Category)
    (user : Option Nat) (d : String) :
    ((ruleBasedCategorization catalog d).2 ≤ 85/100 →
      (fuzzyCategoryMatch catalog d).2 ≤ 40/100 →
      mlStage ml catalog user d (ruleBasedCategorization catalog d).2
        (fuzzyCategoryMatch catalog d).2 = none →
      predict ml catalog user d =
        (match findSystemCat catalog "Shopping" with
         | some fb => (some fb, 1/5)
         | none => (none, 0))) ∧
    (predict ml catalog user d = (none, 0) →
      ruleBasedCategorization catalog d = (none, 0) ∧
      fuzzyCategoryMatch catalog d = (none, 0) ∧
      mlStage ml catalog user d (ruleBasedCategorization catalog d).2
        (fuzzyCategoryMatch catalog d).2 = none ∧
      findSystemCat catalog "Shopping" = none) := by
  constructor
  · intro h85 h40 hml
    have hr := ruleBased_none_of_le h85
    have hf := fuzzy_none_of_le h40
    rw [hr, hf] at hml
    dsimp only at hml
    simp only [predict, hr, hf, hml]
    norm_num
  · intro hp
    have hr : ruleBasedCategorization catalog d = (none, 0) := by
      rcases ruleBased_dichotomy catalog d with h0 | ⟨c, h9⟩
      · exact h0
      · exfalso
        have h85 : (ruleBasedCategorization catalog d).2 > 85/100 := by
          rcases h9 with h9 | h9 <;> rw [h9] <;> norm_num
        simp only [predict] at hp
        rw [if_pos h85] at hp
        rcases h9 with h9 | h9 <;> rw [h9] at hp <;> simp at hp
    have hf : fuzzyCategoryMatch catalog d = (none, 0) := by
      rcases fuzzy_dichotomy catalog d with h0 | ⟨c, q, hfq, hq40⟩
      · exact h0
      · exfalso
        simp only [predict] at hp
        rw [if_neg (by rw [hr]; norm_num)] at hp
        rw [if_pos ⟨by rw [hfq]; exact hq40,
          by rw [hfq, hr]; exact lt_trans (by norm_num) hq40⟩] at hp
        rw [hfq] at hp
        simp at hp
    cases hms : mlStage ml catalog user d (ruleBasedCategorization catalog d).2
        (fuzzyCategoryMatch catalog d).2 with
    | some pr =>
      exfalso
      simp only [predict] at hp
      rw [if_neg (by rw [hr]; norm_num)] at hp
      rw [if_neg (by rw [hf, hr]; norm_num)] at hp
      rw [hms] at hp
      obtain ⟨c, p⟩ := pr
      simp at hp
    | none =>
      refine ⟨hr, hf, rfl, ?_⟩
      simp only [predict] at hp
      rw [if_neg (by rw [hr]; norm_num)] at hp
      rw [if_neg (by rw [hf, hr]; norm_num)] at hp
      rw [hms] at hp
      rw [hr, hf] at hp
      simp only [Option.isSome_none] at hp
      norm_num at hp
      cases hsf : findSystemCat catalog "Shopping" with
      | some fb => rw [hsf] at hp; simp at hp
      | none => rfl

/-- Witness for C6 at the spec scenario: an unmatched description with the
fallback category present. -/
theorem c6_fallback_guarantee_witness :
    predict mlNone catShopOnly none "xyzzy unrecognized merchant 123" =
      (some ⟨9, "Shopping", none, true⟩, 1/5) :=
  ((c6_fallback_guarantee mlNone catShopOnly none "xyzzy unrecognized merchant 123").1
      (by with_unfolding_all decide) (by with_unfolding_all decide) rfl).trans
    (by with_unfolding_all rfl)

/-- Counterexample to claim C7: "walmart netflix" contains the exact rule
keyword "netflix" whose category Entertainment is in the system catalog,
yet `predict` returns Groceries (the first rule in table order with a
matching keyword), not Entertainment. -/
theorem c7_first_rule_wins_cex :
    ("Entertainment", "netflix") ∈ ruleItems ∧
    wholeWord "netflix".data (lowerL "walmart netflix".data) = true ∧
    findSystemCat catGrocEnt "Entertainment" = some ⟨2, "Entertainment", none, true⟩ ∧
    predict mlNone catGrocEnt none "walmart netflix" =
      (some ⟨1, "Groceries", none, true⟩, 19/20) ∧
    (predict mlNone catGrocEnt none "walmart netflix").1 ≠
      some ⟨2, "Entertainment", none, true⟩ := by
  with_unfolding_all decide

/-- Claim C7 (corrected): for every description containing an exact rule
keyword (whole word, case-insensitive) whose rule category is present in
the system catalog, `predict` returns a rule-stage result — a system
catalog entry at confidence 0.95 or 0.90 (at least 0.90), short-circuiting
the fuzzy and statistical stages — but the returned category is the one of
the first matching rule in table order, which need not be the category of
the contained keyword (see the counterexample). -/
theorem c7_rule_keyword_short_circuit (ml : MLOracle) (catalog : List Category)
    (user : Option Nat) (d nm kw : String)
    (hmem : (nm, kw) ∈ ruleItems)
    (hww : wholeWord kw.data (lowerL d.data) = true)
    (hcat : (findSystemCat catalog nm).isSome = true) :
    ∃ c q, predict ml catalog user d = (some c, q) ∧
      predict ml catalog user d = ruleBasedCategorization catalog d ∧
      (q = 19/20 ∨ q = 9/10) ∧ c.isSystem = true ∧ c ∈ catalog := by
  obtain ⟨c0, hc0⟩ := Option.isSome_iff_exists.mp hcat
  have hhit : (ruleKeywordHit catalog (lowerL d.data)
      ((wordTokens (lowerL d.data)).map simpleStemL) nm kw).isSome = true := by
    simp [ruleKeywordHit, hww, hc0]
  have hiso : (ruleItems.findSome? (fun p => ruleKeywordHit catalog (lowerL d.data)
      ((wordTokens (lowerL d.data)).map simpleStemL) p.1 p.2)).isSome = true := by
    rw [List.findSome?_isSome_iff]
    exact ⟨(nm, kw), hmem, hhit⟩
  obtain ⟨pr, hfs⟩ := Option.isSome_iff_exists.mp hiso
  obtain ⟨c1, q1⟩ := pr
  have hrb : ruleBasedCategorization catalog d = (some c1, q1) := by
    simp only [ruleBasedCategorization]
    rw [hfs]
  obtain ⟨hq, hmem1, hsys1⟩ := ruleBased_eq_some hrb
  have h85 : (ruleBasedCategorization catalog d).2 > 85/100 := by
    rw [hrb]; rcases hq with rfl | rfl <;> norm_num
  refine ⟨c1, q1, ?_, ?_, hq, hsys1, hmem1⟩
  · simp only [predict]; rw [if_pos h85]; exact hrb
  · simp only [predict]; rw [if_pos h85]

/-- Witness for the corrected C7 at the two-keyword description. -/
theorem c7_rule_keyword_short_circuit_witness :
    ∃ c q, predict mlNone catGrocEnt none "walmart netflix" = (some c, q) ∧
      predict mlNone catGrocEnt none "walmart netflix" =
        ruleBasedCategorization catGrocEnt "walmart netflix" ∧
      (q = 19/20 ∨ q = 9/10) ∧ c.isSystem = true ∧ c ∈ catGrocEnt :=
  c7_rule_keyword_short_circuit mlNone catGrocEnt none "walmart netflix" "Groceries"
    "walmart" (by decide) (by decide) (by decide)

end FinanceFlow
